import Mathlib

/-!
Verification development for the CWA weather-feed ingestion script
(`fetch_and_store.py`).  The script decodes a JSON document, locates a list
of per-station records with shape heuristics, extracts observation rows
(location, date, min/max temperature, description) and precipitation rows
(location, date, period, precipitation), and stores them.

The embedding below is a shallow model of the Python code:

* JSON-decoded Python values are the inductive `Json`; the Python value
  `None` is `Json.null` (the two are the same object in Python, so the
  model does not distinguish "absent" from "set to None" where the code
  does not).  JSON numbers are modelled as integers (`Int`); the feeds at
  hand carry fractional numerics as strings, and floating-point literals
  are out of scope of this model.
* Falliple Python code is modelled with `Except PyErr`: an uncaught Python
  exception is `.error e`.
* Decoded JSON objects are ordered key/value lists (Python dicts preserve
  insertion order); lookup takes the first binding for a key, which agrees
  with Python for decoded objects (whose keys are unique).
* `datetime.utcnow().isoformat()` is modelled by an explicit `now : String`
  parameter.
* CPython runtime primitives used by the script (`str`, `repr`, `float`,
  truthiness, `in`, iteration) are modelled on the `Json` universe; `repr`
  of strings is modelled without escape sequences, and `float` of strings
  is modelled on plain decimal literals (optional sign, optional fraction,
  optional exponent) — special forms (inf, nan, underscores, hex) fail.
-/

mutual

inductive Json where
  | null
  | bool (b : Bool)
  | num (n : Int)
  | str (s : String)
  | arr (xs : JsonList)
  | obj (kvs : JsonObj)

inductive JsonList where
  | nil
  | cons (hd : Json) (tl : JsonList)

inductive JsonObj where
  | nil
  | cons (k : String) (v : Json) (tl : JsonObj)

end

inductive PyErr where
  | typeError
  | attributeError
deriving DecidableEq

def JsonList.toList : JsonList → List Json
  | .nil => []
  | .cons x tl => x :: tl.toList

def JsonObj.toPairs : JsonObj → List (String × Json)
  | .nil => []
  | .cons k v tl => (k, v) :: tl.toPairs

def jarrL : List Json → JsonList
  | [] => .nil
  | x :: r => .cons x (jarrL r)

def jobjL : List (String × Json) → JsonObj
  | [] => .nil
  | (k, v) :: r => .cons k v (jobjL r)

/-- Convenience constructor: an array from a Lean list. -/
def jarr (xs : List Json) : Json := .arr (jarrL xs)

/-- Convenience constructor: an object from a Lean association list. -/
def jobj (kvs : List (String × Json)) : Json := .obj (jobjL kvs)

/-- Python truthiness of a decoded JSON value. -/
def truthy : Json → Bool
  | .null => false
  | .bool b => b
  | .num n => decide (n ≠ 0)
  | .str s => s != ""
  | .arr xs => (match xs with | .nil => false | _ => true)
  | .obj kvs => (match kvs with | .nil => false | _ => true)

/-- Python `x or y` on decoded values. -/
def pyOr (x y : Json) : Json := if truthy x then x else y

/-- Python `x or None`. -/
def pyOrNone (x : Json) : Json := if truthy x then x else .null

def isNull : Json → Bool
  | .null => true
  | _ => false

def Json.isObjB : Json → Bool
  | .obj _ => true
  | _ => false

/-- Python `v in (None, "")`: equality with `None` or the empty string. -/
def isNoneOrEmpty : Json → Bool
  | .null => true
  | .str s => s == ""
  | _ => false

def lookupKvs : List (String × Json) → String → Option Json
  | [], _ => none
  | (k, v) :: r, key => if k == key then some v else lookupKvs r key

def hasKey (kvs : List (String × Json)) (key : String) : Bool :=
  (lookupKvs kvs key).isSome

/-- Python `d.get(key)` on a dict (absent key gives `None`). -/
def pyGetL (kvs : List (String × Json)) (key : String) : Json :=
  match lookupKvs kvs key with
  | some v => v
  | none => .null

/-- Python `d.get(key, dflt)` on a dict. -/
def pyGetDflt (kvs : List (String × Json)) (key : String) (dflt : Json) : Json :=
  match lookupKvs kvs key with
  | some v => v
  | none => dflt

/-- Whether `needle` occurs at the head of `hay`. -/
def leadsChars : List Char → List Char → Bool
  | [], _ => true
  | _ :: _, [] => false
  | a :: as, b :: bs => a == b && leadsChars as bs

/-- Whether `needle` occurs contiguously anywhere in `hay` (Python `needle in hay`
on strings). -/
def hasSub (needle : List Char) : List Char → Bool
  | [] => needle.isEmpty
  | c :: rest => leadsChars needle (c :: rest) || hasSub needle rest

/-- Python `str.lower()` (ASCII case folding suffices for the element names
this script classifies). -/
def pyLower (s : String) : String := ⟨s.data.map Char.toLower⟩

/-- Decimal rendering of an integer, as Python `str` of an int. -/
def intChars : Int → List Char
  | .ofNat m => Nat.toDigits 10 m
  | .negSucc m => Char.ofNat 45 :: Nat.toDigits 10 (m + 1)

mutual

/-- Python `repr` of a decoded JSON value (string escaping not modelled). -/
def jrepr : Json → List Char
  | .null => "None".data
  | .bool true => "True".data
  | .bool false => "False".data
  | .num n => intChars n
  | .str s => Char.ofNat 39 :: s.data ++ [Char.ofNat 39]
  | .arr xs => Char.ofNat 91 :: (jreprL xs ++ [Char.ofNat 93])
  | .obj kvs => Char.ofNat 123 :: (jreprO kvs ++ [Char.ofNat 125])

def jreprL : JsonList → List Char
  | .nil => []
  | .cons x .nil => jrepr x
  | .cons x (.cons y tl) => jrepr x ++ (Char.ofNat 44 :: ' ' :: jreprL (.cons y tl))

def jreprO : JsonObj → List Char
  | .nil => []
  | .cons k v .nil =>
      Char.ofNat 39 :: k.data ++ (Char.ofNat 39 :: Char.ofNat 58 :: ' ' :: jrepr v)
  | .cons k v (.cons k2 v2 tl) =>
      Char.ofNat 39 :: k.data ++ (Char.ofNat 39 :: Char.ofNat 58 :: ' ' :: jrepr v) ++
        (Char.ofNat 44 :: ' ' :: jreprO (.cons k2 v2 tl))

end

/-- Python `str` of a decoded JSON value. -/
def pyStr : Json → String
  | .str s => s
  | j => ⟨jrepr j⟩

/-- Python iteration over a value: lists yield elements, dicts yield keys,
strings yield one-character strings, anything else raises `TypeError`. -/
def pyIter : Json → Except PyErr (List Json)
  | .arr xs => .ok xs.toList
  | .obj kvs => .ok (kvs.toPairs.map (fun kv => .str kv.1))
  | .str s => .ok (s.data.map (fun c => .str ⟨[c]⟩))
  | _ => .error .typeError

/-- `_get_first_available` specialised to a dict receiver: the first key whose
value is neither `None` nor the empty string, else `None`. -/
def get_first_available (kvs : List (String × Json)) : List String → Json
  | [] => .null
  | k :: ks =>
      if hasKey kvs k && !isNoneOrEmpty (pyGetL kvs k) then pyGetL kvs k
      else get_first_available kvs ks

/-- The key loop of `_get_first_available` when the receiver is a string:
Python `k in s` is substring containment, and a hit then raises `TypeError`
on `s[k]`. -/
def gfaStr (s : String) : List String → Except PyErr Json
  | [] => .ok .null
  | k :: ks => if hasSub k.data s.data then .error .typeError else gfaStr s ks

/-- The key loop of `_get_first_available` when the receiver is a list:
Python `k in xs` is membership, and a hit then raises `TypeError` on `xs[k]`. -/
def gfaArr (xs : List Json) : List String → Except PyErr Json
  | [] => .ok .null
  | k :: ks =>
      if xs.any (fun x => match x with | .str t => t == k | _ => false) then
        .error .typeError
      else gfaArr xs ks

/-- `_get_first_available(obj, keys)` on an arbitrary receiver, with the
Python semantics of `in` and indexing on each shape (`k in 5` raises
`TypeError` at once). -/
def gfaAny (o : Json) (keys : List String) : Except PyErr Json :=
  match o with
  | .obj kvs => .ok (get_first_available kvs.toPairs keys)
  | .str s => gfaStr s keys
  | .arr xs => gfaArr xs.toList keys
  | _ => if keys.isEmpty then .ok .null else .error .typeError

def digitsToNat (cs : List Char) : Nat :=
  cs.foldl (fun a c => a * 10 + (c.toNat - 48)) 0

def isPySpace (c : Char) : Bool :=
  c == ' ' || c == Char.ofNat 9 || c == Char.ofNat 10 || c == Char.ofNat 13 ||
    c == Char.ofNat 11 || c == Char.ofNat 12

/-- Leading and trailing whitespace strip, as CPython `float` does on its
string argument. -/
def stripChars (cs : List Char) : List Char :=
  ((cs.dropWhile isPySpace).reverse.dropWhile isPySpace).reverse

def allDigits (cs : List Char) : Bool := cs.all (·.isDigit)

/-- CPython `float` applied to a string, on plain decimal literals:
optional sign, integer part, optional fraction, optional exponent.
Whitespace is stripped; `inf`, `nan`, underscores and hex forms are not
modelled and fail.  `none` means `ValueError`. -/
def pyFloatOfString (s : String) : Option ℚ :=
  let cs := stripChars s.data
  let sgn : Int := match cs with
    | '-' :: _ => -1
    | _ => 1
  let cs1 : List Char := match cs with
    | '-' :: r => r
    | '+' :: r => r
    | _ => cs
  let mant := cs1.takeWhile (fun c => !(c == 'e' || c == 'E'))
  let rest := cs1.dropWhile (fun c => !(c == 'e' || c == 'E'))
  let ip := mant.takeWhile (fun c => !(c == '.'))
  let fp := (mant.dropWhile (fun c => !(c == '.'))).drop 1
  if allDigits ip && allDigits fp && !(ip.isEmpty && fp.isEmpty) then
    let num0 : Int := sgn * (digitsToNat ip * 10 ^ fp.length + digitsToNat fp)
    let den0 : Nat := 10 ^ fp.length
    match rest with
    | [] => some (Rat.divInt num0 den0)
    | _ :: er =>
      let epos : Bool := match er with
        | '-' :: _ => false
        | _ => true
      let ed : List Char := match er with
        | '-' :: r => r
        | '+' :: r => r
        | _ => er
      if allDigits ed && !ed.isEmpty then
        if epos then some (Rat.divInt (num0 * 10 ^ digitsToNat ed) den0)
        else some (Rat.divInt num0 (den0 * 10 ^ digitsToNat ed))
      else none
  else none

/-- CPython `float` applied to a decoded JSON value; `none` means the call
raises (`ValueError` or `TypeError`). -/
def pyFloatJ : Json → Option ℚ
  | .num n => some (n : ℚ)
  | .bool true => some 1
  | .bool false => some 0
  | .str s => pyFloatOfString s
  | _ => none

/-- The emitted-row field coercion `None if v in (None, "") else str(v)`. -/
def strOpt (v : Json) : Option String :=
  if isNoneOrEmpty v then none else some (pyStr v)

/-! ## Record-list location (`fetch_and_store.py` lines 50–96 and 259–295) -/

/-- `_get_station_list`: `d["cwaopendata"]["dataset"]["Station"]` when that
path exists with the right shapes (dict, dict, list), else `None`. -/
def get_station_list (d : Json) : Json :=
  match d with
  | .obj o =>
    let kvs := o.toPairs
    if hasKey kvs "cwaopendata" then
      match pyGetL kvs "cwaopendata" with
      | .obj co =>
        (match pyGetL co.toPairs "dataset" with
         | .obj dso =>
           (match pyGetL dso.toPairs "Station" with
            | .arr st => Json.arr st
            | _ => .null)
         | _ => .null)
      | _ => .null
    else .null
  | _ => .null

/-- The GeoJSON comprehension `[f.get("properties", \x7b\x7d) for f in features]`:
raises `AttributeError` at the first non-dict feature. -/
def featuresProps : List Json → Except PyErr (List Json)
  | [] => .ok []
  | f :: rest =>
    match f with
    | .obj fk =>
      (match featuresProps rest with
       | .ok r => .ok (pyGetDflt fk.toPairs "properties" (jobj []) :: r)
       | .error e => .error e)
    | _ => .error .attributeError

/-- Lines 78–86 / 284–290: the top-level `location`/`locations`/`features`
heuristics, run when `locations` is still `None`. -/
def topLevelLists (kvs : List (String × Json)) : Except PyErr Json :=
  match pyGetL kvs "location" with
  | .arr xs => .ok (.arr xs)
  | _ =>
    match pyGetL kvs "locations" with
    | .arr xs => .ok (.arr xs)
    | _ =>
      match pyGetL kvs "features" with
      | .arr fs =>
        (match featuresProps fs.toList with
         | .ok props => .ok (jarr props)
         | .error e => .error e)
      | _ => .ok .null

/-- Lines 72–86 / 278–290: the `isinstance(data, dict)` branch of the
locator, entered with the current value `l0` of the `locations` variable. -/
def locationsBranchDict (kvs : List (String × Json)) (l0 : Json) : Except PyErr Json :=
  let l1 : Json :=
    if hasKey kvs "records" then
      match pyGetL kvs "records" with
      | .obj ro => if hasKey ro.toPairs "location" then pyGetL ro.toPairs "location" else l0
      | .arr rs => .arr rs
      | _ => l0
    else l0
  if isNull l1 then topLevelLists kvs else .ok l1

/-- Lines 64–88: the value of `locations` in `parse_locations` (`.null` for
Python `None`).  The Station wrapper, when truthy, short-circuits the rest. -/
def locationsObs (data : Json) : Except PyErr Json :=
  let st := get_station_list data
  if truthy st then .ok st
  else
    match data with
    | .obj o => locationsBranchDict o.toPairs .null
    | .arr xs => .ok (.arr xs)
    | _ => .ok .null

/-- Lines 272–292: the value of `locations` in `parse_precipitation`.  Unlike
`parse_locations` there is no `else`, so the dict branch can overwrite a
Station-wrapper hit. -/
def locationsPrec (data : Json) : Except PyErr Json :=
  let st := get_station_list data
  let l0 := if truthy st then st else .null
  match data with
  | .obj o => locationsBranchDict o.toPairs l0
  | .arr xs => .ok (.arr xs)
  | _ => .ok l0

/-- The sequence of `loc` values consumed by the per-record loop of
`parse_locations` (lines 64–97), including the single-object fallback and
Python iteration semantics over the located value. -/
def locate_records_obs (data : Json) : Except PyErr (List Json) :=
  match locationsObs data with
  | .error e => .error e
  | .ok lv =>
    if truthy lv then pyIter lv
    else
      match data with
      | .obj _ => .ok [data]
      | _ => .ok []

/-- The sequence of `loc` values consumed by the per-record loop of
`parse_precipitation` (lines 272–297); no single-object fallback. -/
def locate_records_prec (data : Json) : Except PyErr (List Json) :=
  match locationsPrec data with
  | .error e => .error e
  | .ok lv => if truthy lv then pyIter lv else .ok []

/-! ## Observation extraction (`parse_locations`, lines 97–197) -/

/-- Element-name resolution (line 143):
`element.get("elementName") or element.get("element") or
element.get("parameterName") or element.get("name")`. -/
def elemName (ek : List (String × Json)) : Json :=
  pyOr (pyGetL ek "elementName")
    (pyOr (pyGetL ek "element") (pyOr (pyGetL ek "parameterName") (pyGetL ek "name")))

/-- The guard `"time" in e and isinstance(e["time"], list) and e["time"]`,
returning the first entry of the time list when it holds. -/
def timeHead (ek : List (String × Json)) : Option Json :=
  match pyGetL ek "time" with
  | .arr (.cons t _) => some t
  | _ => none

/-- Element-value resolution (lines 146–169).  Note line 151: `val` is
seeded from `time[0]`'s `startTime`/`dataTime` (the source comments
"not the value") and is kept whenever no nested parameter is found. -/
def elemVal (ek : List (String × Json)) : Json :=
  let v1 : Json :=
    match timeHead ek with
    | some (.obj to_) =>
      let tk := to_.toPairs
      let v := get_first_available tk ["startTime", "dataTime"]
      let param : Json :=
        match pyGetL tk "parameter" with
        | .obj po => pyOr (pyGetL po.toPairs "parameterName") (pyGetL po.toPairs "parameterValue")
        | _ =>
          match pyGetL tk "elementValue" with
          | .obj evo => pyGetL evo.toPairs "value"
          | _ => .null
      if !isNull param then param else v
    | _ => .null
  let v2 :=
    if isNull v1 then
      pyOrNone (get_first_available ek ["parameter", "value", "elementValue", "forecast", "parameterName"])
    else v1
  if isNull v2 then
    match timeHead ek with
    | some (.obj to_) =>
      (match lookupKvs to_.toPairs "parameter" with
       | some (.obj po) => pyGetL po.toPairs "parameterName"
       | _ => .null)
    | some _ => .null
    | none => v2
  else v2

structure ScanAcc where
  min_temp : Json
  max_temp : Json
  description : Json

def minKeys : List String := ["mint", "min", "tmin"]
def maxKeys : List String := ["maxt", "max", "tmax"]
def descKeys : List String := ["wx", "weather", "description", "wxvalue", "wx_desc"]

/-- `any(k in lname for k in ks)`. -/
def nameMatches (lname : String) (ks : List String) : Bool :=
  ks.any (fun k => hasSub k.data lname.data)

/-- Line 171: `lname = (name or "").lower() if name else ""`, which raises
`AttributeError` when the resolved name is truthy but not a string. -/
def lnameResolve (ek : List (String × Json)) : Except PyErr String :=
  if truthy (elemName ek) then
    match elemName ek with
    | .str s => .ok (pyLower s)
    | _ => .error .attributeError
  else .ok ""

/-- Lines 172–180: the `elif` classification chain, reassigning the matched
category (so a later match overwrites an earlier one). -/
def applyCat (lname : String) (v : Json) (acc : ScanAcc) : ScanAcc :=
  if nameMatches lname minKeys then { acc with min_temp := v }
  else if nameMatches lname maxKeys then { acc with max_temp := v }
  else if nameMatches lname descKeys then { acc with description := v }
  else acc

/-- The `weatherElement` classification loop (lines 140–180).  A truthy
non-string resolved name raises `AttributeError` on `.lower()`, aborting the
record. -/
def scanElements : List Json → ScanAcc → Except PyErr ScanAcc
  | [], acc => .ok acc
  | e :: rest, acc =>
    match e with
    | .obj eo =>
      (match lnameResolve eo.toPairs with
       | .error e2 => .error e2
       | .ok lname => scanElements rest (applyCat lname (elemVal eo.toPairs) acc))
    | _ => scanElements rest acc

/-- The date scan over `weatherElement` (lines 123–129 / 315–321):
thread `date_val`, break on the first truthy hit; `_get_first_available`
on a non-dict `time[0]` can raise. -/
def dateFromElems : List Json → Json → Except PyErr Json
  | [], dv => .ok dv
  | e :: rest, dv =>
    match e with
    | .obj eo =>
      (match timeHead eo.toPairs with
       | some t0 =>
         (match gfaAny t0 ["startTime", "dataTime"] with
          | .error e2 => .error e2
          | .ok g =>
            let dv2 := pyOr g dv
            if truthy dv2 then .ok dv2 else dateFromElems rest dv2)
       | none => dateFromElems rest dv)
    | _ => dateFromElems rest dv

/-- Step 1 of the `parse_locations` date heuristics (lines 112–114): the
first entry of a `time` list. -/
def dateObsStep1 (kvs : List (String × Json)) : Except PyErr Json :=
  match pyGetL kvs "time" with
  | .arr (.cons ft _) =>
    (match gfaAny ft ["startTime", "dataTime", "time"] with
     | .error e => .error e
     | .ok g => .ok (pyOr g .null))
  | _ => .ok .null

/-- Step 2 (lines 117–120): `ObsTime.DateTime` when `date_val` is still
falsy. -/
def dateObsStep2 (kvs : List (String × Json)) (d1 : Json) : Json :=
  if !truthy d1 then
    match pyGetL kvs "ObsTime" with
    | .obj oo =>
      if truthy (pyGetL oo.toPairs "DateTime") then pyGetL oo.toPairs "DateTime" else d1
    | _ => d1
  else d1

/-- Step 3 (lines 123–129): the `weatherElement` date scan when `date_val`
is still falsy. -/
def dateStep3 (kvs : List (String × Json)) (d2 : Json) : Except PyErr Json :=
  if !truthy d2 then
    match pyGetL kvs "weatherElement" with
    | .arr es => dateFromElems es.toList d2
    | _ => .ok d2
  else .ok d2

/-- Step 4 (line 132 / 322): `date_val or resolver or now`. -/
def dateFinal (now : String) (kvs : List (String × Json)) (d3 : Json) : Json :=
  if truthy d3 then d3
  else pyOr (get_first_available kvs ["date", "forecastDate", "dataTime"]) (.str now)

/-- Date resolution of `parse_locations` (lines 110–132): `time[0]` first,
then `ObsTime.DateTime`, then the element scan, then direct keys, then the
current UTC timestamp `now`. -/
def dateResolveObs (now : String) (kvs : List (String × Json)) : Except PyErr Json :=
  match dateObsStep1 kvs with
  | .error e => .error e
  | .ok d1 =>
    match dateStep3 kvs (dateObsStep2 kvs d1) with
    | .error e => .error e
    | .ok d3 => .ok (dateFinal now kvs d3)

/-- Step 1 of the `parse_precipitation` date heuristics (lines 310–311):
`ObsTime.DateTime` first. -/
def datePrecStep1 (kvs : List (String × Json)) : Json :=
  match pyGetL kvs "ObsTime" with
  | .obj oo => pyOr (pyGetL oo.toPairs "DateTime") .null
  | _ => .null

/-- Step 2 (lines 312–314): the `time` list when `date_val` is still falsy. -/
def datePrecStep2 (kvs : List (String × Json)) (d0 : Json) : Except PyErr Json :=
  if !truthy d0 then
    match pyGetL kvs "time" with
    | .arr (.cons ft _) =>
      (match gfaAny ft ["startTime", "dataTime", "time"] with
       | .error e => .error e
       | .ok g => .ok (pyOr g d0))
    | _ => .ok d0
  else .ok d0

/-- Date resolution of `parse_precipitation` (lines 309–322):
`ObsTime.DateTime` is checked before the `time` list. -/
def dateResolvePrec (now : String) (kvs : List (String × Json)) : Except PyErr Json :=
  match datePrecStep2 kvs (datePrecStep1 kvs) with
  | .error e => .error e
  | .ok d1 =>
    match dateStep3 kvs d1 with
    | .error e => .error e
    | .ok d2 => .ok (dateFinal now kvs d2)

/-- Station-name resolution (lines 103–107 / 302–306): `StationName` when
truthy, else the key resolver, else the literal `"Unknown"`. -/
def locNameOf (kvs : List (String × Json)) : Json :=
  let s0 := if hasKey kvs "StationName" then pyGetL kvs "StationName" else .null
  if truthy s0 then s0
  else pyOr (get_first_available kvs ["locationName", "location", "name", "area", "county", "city"])
        (.str "Unknown")

structure ObsRow where
  location : String
  date : String
  min_temp : Option String
  max_temp : Option String
  description : Option String
deriving DecidableEq

/-- The description fallback (lines 183–184). -/
def descFallback (kvs : List (String × Json)) (d0 : Json) : Json :=
  if !truthy d0 then pyOr (get_first_available kvs ["description", "weather", "wx", "parameterName"]) d0
  else d0

/-- The `weatherElement` classification scan of one record (lines 139–180). -/
def scanOf (kvs : List (String × Json)) : Except PyErr ScanAcc :=
  match pyGetL kvs "weatherElement" with
  | .arr es => scanElements es.toList ⟨.null, .null, .null⟩
  | _ => .ok ⟨.null, .null, .null⟩

/-- The body of the per-record loop of `parse_locations` (lines 98–192):
`.ok none` models `continue` on a non-dict record, `.error` an exception
caught by the loop. -/
def extract_obs_record (now : String) (loc : Json) : Except PyErr (Option ObsRow) :=
  match loc with
  | .obj o =>
    match dateResolveObs now o.toPairs with
    | .error e => .error e
    | .ok dv =>
      match scanOf o.toPairs with
      | .error e => .error e
      | .ok acc =>
        .ok (some
          { location := pyStr (locNameOf o.toPairs)
            date := pyStr dv
            min_temp := strOpt acc.min_temp
            max_temp := strOpt acc.max_temp
            description := strOpt (descFallback o.toPairs acc.description) })
  | _ => .ok none

/-- The per-record loop of `parse_locations` (lines 97–195): exceptions and
non-dict records are skipped, everything else appends one row. -/
def process_locations (now : String) : List Json → List ObsRow
  | [] => []
  | loc :: rest =>
    match extract_obs_record now loc with
    | .ok (some r) => r :: process_locations now rest
    | _ => process_locations now rest

/-- `parse_locations` (lines 44–197). -/
def parse_locations (data : Json) (now : String) : Except PyErr (List ObsRow) :=
  match locate_records_obs data with
  | .error e => .error e
  | .ok locs => .ok (process_locations now locs)

/-! ## Precipitation extraction (`parse_precipitation`, lines 253–346) -/

structure PrecipRow where
  location : String
  date : String
  period : String
  precipitation : Option ℚ
deriving DecidableEq

/-- Per-period value resolution (lines 328–332): resolver `or None` on a
dict entry, the entry itself otherwise. -/
def precipValOf (sub : Json) : Json :=
  match sub with
  | .obj so => pyOrNone (get_first_available so.toPairs ["Precipitation", "Precip", "Value", "precipitation", "value"])
  | _ => sub

/-- The rainfall-map loop (lines 325–342): one row per entry, in insertion
order; a failed `float` is caught and stored as `None`. -/
def rainfallRows (locn dv : String) (rf : Json) : List PrecipRow :=
  match rf with
  | .obj entries =>
    entries.toPairs.map (fun pe =>
      let v := precipValOf pe.2
      { location := locn
        date := dv
        period := pe.1
        precipitation := if isNoneOrEmpty v then none else pyFloatJ v })
  | _ => []

/-- Line 324: `loc.get("RainfallElement") or loc.get("Rainfall") or
loc.get("rainfall")`. -/
def rfOf (kvs : List (String × Json)) : Json :=
  pyOr (pyGetL kvs "RainfallElement") (pyOr (pyGetL kvs "Rainfall") (pyGetL kvs "rainfall"))

/-- The body of the per-record loop of `parse_precipitation` (lines 298–342):
a non-dict record contributes nothing, an exception aborts the record. -/
def extract_precip_record (now : String) (loc : Json) : Except PyErr (List PrecipRow) :=
  match loc with
  | .obj o =>
    match dateResolvePrec now o.toPairs with
    | .error e => .error e
    | .ok dv =>
      .ok (rainfallRows (pyStr (locNameOf o.toPairs)) (pyStr dv) (rfOf o.toPairs))
  | _ => .ok []

/-- The per-record loop of `parse_precipitation` (lines 297–344). -/
def process_precip (now : String) : List Json → List PrecipRow
  | [] => []
  | loc :: rest =>
    match extract_precip_record now loc with
    | .ok rs => rs ++ process_precip now rest
    | .error _ => process_precip now rest

/-- `parse_precipitation` (lines 253–346). -/
def parse_precipitation (data : Json) (now : String) : Except PyErr (List PrecipRow) :=
  match locate_records_prec data with
  | .error e => .error e
  | .ok locs => .ok (process_precip now locs)

/-! ## Storage coercion (`insert_rows`, lines 233–250) -/

/-- `float(r[k]) if r.get(k) not in (None, "") else None`; `none` models the
`float` call raising `ValueError`. -/
def coerceTempField (v : Option String) : Option (Option ℚ) :=
  match v with
  | none => some none
  | some s => if s = "" then some none else (pyFloatOfString s).map some

structure WeatherRowIns where
  location : String
  date : String
  min_temp : Option ℚ
  max_temp : Option ℚ
  description : Option String
deriving DecidableEq

/-- `insert_rows` (lines 233–250): the list of tuples inserted into the
`weather` table (in order) and the returned count.  A row whose temperature
coercion raises is skipped whole by the `except: continue`. -/
def insert_rows : List ObsRow → List WeatherRowIns × Nat
  | [] => ([], 0)
  | r :: rest =>
    let prev := insert_rows rest
    match coerceTempField r.min_temp, coerceTempField r.max_temp with
    | some mi, some ma =>
      ((WeatherRowIns.mk r.location r.date mi ma r.description) :: prev.1, prev.2 + 1)
    | _, _ => prev

/-! ## Spec-side definitions

These follow the specification's words rather than the source, for the
refinement-style claims that compare the two. -/

/-- Modelled from the spec, §4.2 step 1: `document.cwaopendata.dataset.Station`
"if present and is a list". -/
def stationsSpec (d : Json) : Option (List Json) :=
  match d with
  | .obj o =>
    (match pyGetL o.toPairs "cwaopendata" with
     | .obj co =>
       (match pyGetL co.toPairs "dataset" with
        | .obj dso =>
          (match pyGetL dso.toPairs "Station" with
           | .arr st => some st.toList
           | _ => none)
        | _ => none)
     | _ => none)
  | _ => none

/-- Modelled from the spec, §4.2 step 4: "extract the `properties` sub-object
of each feature (default to empty object if absent)". -/
def featuresPropsSpec (fs : List Json) : List Json :=
  fs.map (fun f =>
    match f with
    | .obj fk => pyGetDflt fk.toPairs "properties" (jobj [])
    | _ => jobj [])

/-- Modelled from the spec, §4.2 steps 3, 4 and 6: top-level
`location`/`locations` lists, GeoJSON features, single-object wrap. -/
def locateSpecTop (kvs : List (String × Json)) (d : Json) : List Json :=
  match pyGetL kvs "location" with
  | .arr xs => xs.toList
  | _ =>
    match pyGetL kvs "locations" with
    | .arr xs => xs.toList
    | _ =>
      match pyGetL kvs "features" with
      | .arr fs => featuresPropsSpec fs.toList
      | _ => [d]

/-- Modelled from the spec, §4.2: the Record-List Locator contract
`locate(document) -> sequence of objects`, heuristics tried in fixed
order with the first success winning. -/
def locateSpec (d : Json) : List Json :=
  match stationsSpec d with
  | some st => st
  | none =>
    match d with
    | .obj o =>
      let kvs := o.toPairs
      (match pyGetL kvs "records" with
       | .obj ro =>
         (match pyGetL ro.toPairs "location" with
          | .arr xs => xs.toList
          | _ => locateSpecTop kvs d)
       | .arr rs => rs.toList
       | _ => locateSpecTop kvs d)
    | .arr xs => xs.toList
    | _ => []

/-- The side condition under which the code's locator and the spec's §4.2
locator agree: the Station wrapper, `records`, `location`, `locations` and
`features` lists are non-empty when present, a `records.location` value is
null or a list, and all features entries are objects. -/
def locAgreeCond (d : Json) : Bool :=
  (match get_station_list d with
   | .arr .nil => false
   | _ => true) &&
  (match d with
   | .obj o =>
     let kvs := o.toPairs
     (match pyGetL kvs "records" with
      | .obj ro =>
        (match pyGetL ro.toPairs "location" with
         | .null => true
         | .arr (.cons _ _) => true
         | _ => false)
      | .arr (.cons _ _) => true
      | .arr .nil => false
      | _ => true) &&
     (match pyGetL kvs "location" with
      | .arr .nil => false
      | _ => true) &&
     (match pyGetL kvs "locations" with
      | .arr .nil => false
      | _ => true) &&
     (match pyGetL kvs "features" with
      | .arr fs => !fs.toList.isEmpty && fs.toList.all Json.isObjB
      | _ => true)
   | _ => true)

/-- Whether the dict branch of `parse_precipitation`'s locator assigns
`locations` (and so can overwrite a Station-wrapper hit): a `records` value
that is a list, or a dict containing a `location` key. -/
def precOverride (d : Json) : Bool :=
  match d with
  | .obj o =>
    (match pyGetL o.toPairs "records" with
     | .obj ro => hasKey ro.toPairs "location"
     | .arr _ => true
     | _ => false)
  | _ => false

/-- The per-period precipitation value as claim C8 words it: the key resolver
over the candidate keys on an object entry (no truthiness collapse), the
entry itself otherwise, coerced to a float. -/
def c8ClaimValue (sub : Json) : Option ℚ :=
  let v : Json :=
    match sub with
    | .obj so => get_first_available so.toPairs ["Precipitation", "Precip", "Value", "precipitation", "value"]
    | _ => sub
  if isNoneOrEmpty v then none else pyFloatJ v

/-! ## Last-match classification machinery (claim C6) -/

inductive TempCat where
  | minT
  | maxT
  | descT
deriving DecidableEq

/-- The lowercased resolved element name, as the scan computes it when the
resolved name is a string or falsy. -/
def lnameOf (ek : List (String × Json)) : String :=
  match elemName ek with
  | .str s => pyLower s
  | _ => ""

/-- The category an element is classified into by the keyword rules. -/
def elemCat (e : Json) : Option TempCat :=
  match e with
  | .obj eo =>
    let ln := lnameOf eo.toPairs
    if nameMatches ln minKeys then some .minT
    else if nameMatches ln maxKeys then some .maxT
    else if nameMatches ln descKeys then some .descT
    else none
  | _ => none

/-- The value of the last element of `es` classified into category `c`
(`dflt` when none is). -/
def lastCatVal (es : List Json) (c : TempCat) (dflt : Json) : Json :=
  match es.reverse.find? (fun e => elemCat e == some c) with
  | some (.obj eo) => elemVal eo.toPairs
  | _ => dflt

/-- All elements of the list have a resolved name that is a string or falsy,
so the scan's `.lower()` call cannot raise. -/
def namesOkB (es : List Json) : Bool :=
  es.all (fun e =>
    match e with
    | .obj eo =>
      (match elemName eo.toPairs with
       | .str _ => true
       | nm => !truthy nm)
    | _ => true)

/-! ## Helper lemmas -/

theorem toDigitsCore_ne_nil (b : Nat) :
    ∀ (fuel n : Nat) (ds : List Char), ds ≠ [] ∨ fuel ≠ 0 →
      Nat.toDigitsCore b fuel n ds ≠ [] := by
  intro fuel
  induction fuel with
  | zero =>
    intro n ds h
    simpa [Nat.toDigitsCore] using h.resolve_right (by simp)
  | succ f ih =>
    intro n ds _
    by_cases hb : n / b = 0
    · simp [Nat.toDigitsCore, hb]
    · simp only [Nat.toDigitsCore, hb, if_false]
      exact ih _ _ (Or.inl (List.cons_ne_nil _ _))

theorem toDigits_ne_nil (b n : Nat) : Nat.toDigits b n ≠ [] :=
  toDigitsCore_ne_nil b (n + 1) n [] (Or.inr (Nat.succ_ne_zero n))

theorem intChars_ne_nil (n : Int) : intChars n ≠ [] := by
  cases n with
  | ofNat m => exact toDigits_ne_nil 10 m
  | negSucc m => exact List.cons_ne_nil _ _

theorem jrepr_ne_nil (j : Json) : jrepr j ≠ [] := by
  cases j with
  | null => simp [jrepr]
  | bool b => cases b <;> simp [jrepr]
  | num n => simpa [jrepr] using intChars_ne_nil n
  | str s => simp [jrepr]
  | arr xs => simp [jrepr]
  | obj kvs => simp [jrepr]

theorem mk_ne_empty_of_ne_nil {l : List Char} (h : l ≠ []) : (⟨l⟩ : String) ≠ "" := by
  intro he
  exact h (congrArg String.data he)

theorem pyStr_ne_empty_of_truthy (v : Json) (h : truthy v = true) : pyStr v ≠ "" := by
  cases v with
  | str s =>
    simp only [pyStr]
    simpa [truthy, String.ext_iff] using h
  | null => simp [truthy] at h
  | bool b => exact mk_ne_empty_of_ne_nil (jrepr_ne_nil _)
  | num n => exact mk_ne_empty_of_ne_nil (jrepr_ne_nil _)
  | arr xs => exact mk_ne_empty_of_ne_nil (jrepr_ne_nil _)
  | obj kvs => exact mk_ne_empty_of_ne_nil (jrepr_ne_nil _)

theorem pyOr_unknown_ne (g : Json) : pyStr (pyOr g (.str "Unknown")) ≠ "" := by
  unfold pyOr
  split
  · exact pyStr_ne_empty_of_truthy _ (by assumption)
  · decide

theorem locNameOf_ne_empty (kvs : List (String × Json)) : pyStr (locNameOf kvs) ≠ "" := by
  have hcore : ∀ v : Json,
      pyStr (if truthy v = true then v
             else pyOr (get_first_available kvs ["locationName", "location", "name", "area", "county", "city"])
                    (Json.str "Unknown")) ≠ "" := by
    intro v
    by_cases hv : truthy v = true
    · simpa [hv] using pyStr_ne_empty_of_truthy v hv
    · simp only [hv, if_false]
      exact pyOr_unknown_ne _
  simpa [locNameOf] using hcore _

theorem dateFinal_cases (now : String) (kvs : List (String × Json)) (d3 : Json) :
    truthy (dateFinal now kvs d3) = true ∨ dateFinal now kvs d3 = .str now := by
  unfold dateFinal
  split
  · left; assumption
  · unfold pyOr
    split
    · left; assumption
    · right; rfl

theorem dateResolveObs_ok (now : String) (kvs : List (String × Json)) (dv : Json)
    (h : dateResolveObs now kvs = .ok dv) : truthy dv = true ∨ dv = .str now := by
  unfold dateResolveObs at h
  split at h
  · exact Except.noConfusion h
  · split at h
    · exact Except.noConfusion h
    · cases h
      exact dateFinal_cases now kvs _

theorem dateResolvePrec_ok (now : String) (kvs : List (String × Json)) (dv : Json)
    (h : dateResolvePrec now kvs = .ok dv) : truthy dv = true ∨ dv = .str now := by
  unfold dateResolvePrec at h
  split at h
  · exact Except.noConfusion h
  · split at h
    · exact Except.noConfusion h
    · cases h
      exact dateFinal_cases now kvs _

theorem pyStr_date_ne_empty (now : String) (dv : Json) (hn : now ≠ "")
    (hd : truthy dv = true ∨ dv = .str now) : pyStr dv ≠ "" := by
  rcases hd with ht | hs
  · exact pyStr_ne_empty_of_truthy _ ht
  · rw [hs]
    simpa [pyStr] using hn

theorem extract_obs_ok_fields (now : String) (loc : Json) (r : ObsRow)
    (h : extract_obs_record now loc = .ok (some r)) :
    r.location ≠ "" ∧ (now ≠ "" → r.date ≠ "") := by
  cases loc with
  | obj o =>
    have h2 : (match dateResolveObs now o.toPairs with
               | .error e => (.error e : Except PyErr (Option ObsRow))
               | .ok dv =>
                 match scanOf o.toPairs with
                 | .error e => .error e
                 | .ok acc =>
                   .ok (some
                     { location := pyStr (locNameOf o.toPairs)
                       date := pyStr dv
                       min_temp := strOpt acc.min_temp
                       max_temp := strOpt acc.max_temp
                       description := strOpt (descFallback o.toPairs acc.description) }))
        = .ok (some r) := h
    clear h
    split at h2
    · exact Except.noConfusion h2
    · rename_i dv hdv
      split at h2
      · exact Except.noConfusion h2
      · rename_i acc hacc
        rw [Except.ok.injEq, Option.some.injEq] at h2
        subst h2
        refine ⟨locNameOf_ne_empty _, fun hn => ?_⟩
        exact pyStr_date_ne_empty now dv hn (dateResolveObs_ok now o.toPairs dv hdv)
  | null => simp [extract_obs_record] at h
  | bool b => simp [extract_obs_record] at h
  | num n => simp [extract_obs_record] at h
  | str s => simp [extract_obs_record] at h
  | arr xs => simp [extract_obs_record] at h

theorem extract_precip_ok_fields (now : String) (loc : Json) (rs : List PrecipRow)
    (r : PrecipRow) (h : extract_precip_record now loc = .ok rs) (hm : r ∈ rs) :
    r.location ≠ "" ∧ (now ≠ "" → r.date ≠ "") := by
  cases loc with
  | obj o =>
    have h2 : (match dateResolvePrec now o.toPairs with
               | .error e => (.error e : Except PyErr (List PrecipRow))
               | .ok dv =>
                 .ok (rainfallRows (pyStr (locNameOf o.toPairs)) (pyStr dv) (rfOf o.toPairs)))
        = .ok rs := h
    clear h
    split at h2
    · exact Except.noConfusion h2
    · rename_i dv hdv
      rw [Except.ok.injEq] at h2
      subst h2
      unfold rainfallRows at hm
      split at hm
      · rename_i entries hent
        rcases List.mem_map.mp hm with ⟨pe, _, hpe⟩
        subst hpe
        refine ⟨locNameOf_ne_empty _, fun hn => ?_⟩
        exact pyStr_date_ne_empty now dv hn (dateResolvePrec_ok now o.toPairs dv hdv)
      · simp at hm
  | null =>
    rw [show extract_precip_record now .null = .ok [] from rfl, Except.ok.injEq] at h
    subst h; simp at hm
  | bool b =>
    rw [show extract_precip_record now (.bool b) = .ok [] from rfl, Except.ok.injEq] at h
    subst h; simp at hm
  | num n =>
    rw [show extract_precip_record now (.num n) = .ok [] from rfl, Except.ok.injEq] at h
    subst h; simp at hm
  | str s =>
    rw [show extract_precip_record now (.str s) = .ok [] from rfl, Except.ok.injEq] at h
    subst h; simp at hm
  | arr xs =>
    rw [show extract_precip_record now (.arr xs) = .ok [] from rfl, Except.ok.injEq] at h
    subst h; simp at hm

theorem process_locations_append (now : String) (A B : List Json) :
    process_locations now (A ++ B) = process_locations now A ++ process_locations now B := by
  induction A with
  | nil => simp [process_locations]
  | cons x t ih =>
    cases hx : extract_obs_record now x with
    | error e => simp [process_locations, hx, ih]
    | ok o => cases o <;> simp [process_locations, hx, ih]

theorem process_precip_append (now : String) (A B : List Json) :
    process_precip now (A ++ B) = process_precip now A ++ process_precip now B := by
  induction A with
  | nil => simp [process_precip]
  | cons x t ih =>
    cases hx : extract_precip_record now x with
    | error e => simp [process_precip, hx, ih]
    | ok rs => simp [process_precip, hx, ih]

theorem mem_process_locations (now : String) (locs : List Json) (r : ObsRow)
    (h : r ∈ process_locations now locs) :
    ∃ loc, loc ∈ locs ∧ extract_obs_record now loc = .ok (some r) := by
  induction locs with
  | nil => simp [process_locations] at h
  | cons x t ih =>
    revert h
    cases hx : extract_obs_record now x with
    | error e =>
      intro h
      rw [show process_locations now (x :: t) = process_locations now t from by
        simp [process_locations, hx]] at h
      rcases ih h with ⟨loc, hl, he⟩
      exact ⟨loc, List.mem_cons_of_mem _ hl, he⟩
    | ok o =>
      cases o with
      | none =>
        intro h
        rw [show process_locations now (x :: t) = process_locations now t from by
          simp [process_locations, hx]] at h
        rcases ih h with ⟨loc, hl, he⟩
        exact ⟨loc, List.mem_cons_of_mem _ hl, he⟩
      | some r2 =>
        intro h
        rw [show process_locations now (x :: t) = r2 :: process_locations now t from by
          simp [process_locations, hx]] at h
        rcases List.mem_cons.mp h with h1 | h2
        · subst h1
          exact ⟨x, List.mem_cons_self _ _, hx⟩
        · rcases ih h2 with ⟨loc, hl, he⟩
          exact ⟨loc, List.mem_cons_of_mem _ hl, he⟩

theorem mem_process_precip (now : String) (locs : List Json) (r : PrecipRow)
    (h : r ∈ process_precip now locs) :
    ∃ loc rs, loc ∈ locs ∧ extract_precip_record now loc = .ok rs ∧ r ∈ rs := by
  induction locs with
  | nil => simp [process_precip] at h
  | cons x t ih =>
    revert h
    cases hx : extract_precip_record now x with
    | error e =>
      intro h
      rw [show process_precip now (x :: t) = process_precip now t from by
        simp [process_precip, hx]] at h
      rcases ih h with ⟨loc, rs, hl, he, hm⟩
      exact ⟨loc, rs, List.mem_cons_of_mem _ hl, he, hm⟩
    | ok rs0 =>
      intro h
      rw [show process_precip now (x :: t) = rs0 ++ process_precip now t from by
        simp [process_precip, hx]] at h
      rcases List.mem_append.mp h with h1 | h2
      · exact ⟨x, rs0, List.mem_cons_self _ _, hx, h1⟩
      · rcases ih h2 with ⟨loc, rs, hl, he, hm⟩
        exact ⟨loc, rs, List.mem_cons_of_mem _ hl, he, hm⟩

theorem lastCatVal_cons (e : Json) (rest : List Json) (c : TempCat) (dflt : Json) :
    lastCatVal (e :: rest) c dflt =
      lastCatVal rest c
        (if elemCat e == some c then
           (match e with | .obj eo => elemVal eo.toPairs | _ => dflt)
         else dflt) := by
  unfold lastCatVal
  rw [List.reverse_cons, List.find?_append]
  cases hf : rest.reverse.find? (fun x => elemCat x == some c) with
  | some x =>
    have hx : (elemCat x == some c) = true := by simpa using List.find?_some hf
    cases x with
    | obj eo => simp [Option.or]
    | null => simp [elemCat] at hx
    | bool b => simp [elemCat] at hx
    | num n => simp [elemCat] at hx
    | str s => simp [elemCat] at hx
    | arr xs => simp [elemCat] at hx
  | none =>
    by_cases hc : (elemCat e == some c) = true
    · cases e with
      | obj eo => simp [Option.or, List.find?, hc]
      | null => simp [elemCat] at hc
      | bool b => simp [elemCat] at hc
      | num n => simp [elemCat] at hc
      | str s => simp [elemCat] at hc
      | arr xs => simp [elemCat] at hc
    · simp [Option.or, List.find?, hc]

theorem scan_lname_eq (ek : List (String × Json))
    (hok : (match elemName ek with | .str _ => true | nm => !truthy nm) = true) :
    lnameResolve ek = Except.ok (lnameOf ek) := by
  unfold lnameResolve
  cases hn : elemName ek with
  | str s =>
    by_cases ht : truthy (Json.str s) = true
    · simp [ht, lnameOf, hn]
    · have hs : s = "" := by
        by_contra hne
        exact ht (by simp [truthy, hne])
      subst hs
      simp only [ht, if_false, lnameOf, hn]
      rfl
  | null => simp [truthy, lnameOf, hn]
  | bool b =>
    rw [hn] at hok
    have hb : b = false := by simpa [truthy] using hok
    subst hb
    simp [truthy, lnameOf, hn]
  | num n =>
    rw [hn] at hok
    have h0 : n = 0 := by simpa [truthy] using hok
    subst h0
    simp [truthy, lnameOf, hn]
  | arr xs =>
    rw [hn] at hok
    cases xs with
    | nil => simp [truthy, lnameOf, hn]
    | cons y tl => simp [truthy] at hok
  | obj kvs2 =>
    rw [hn] at hok
    cases kvs2 with
    | nil => simp [truthy, lnameOf, hn]
    | cons k v tl => simp [truthy] at hok

theorem scanElements_eq (es : List Json) (h : namesOkB es = true) :
    ∀ acc : ScanAcc, scanElements es acc =
      .ok ⟨lastCatVal es .minT acc.min_temp, lastCatVal es .maxT acc.max_temp,
           lastCatVal es .descT acc.description⟩ := by
  induction es with
  | nil => intro acc; rfl
  | cons e rest ih =>
    have h2 := h
    unfold namesOkB at h2
    rw [List.all_cons, Bool.and_eq_true] at h2
    obtain ⟨hhead, htl0⟩ := h2
    have htl : namesOkB rest = true := htl0
    intro acc
    cases e with
    | obj eo =>
      have hhead2 : (match elemName eo.toPairs with
                     | .str _ => true
                     | nm => !truthy nm) = true := hhead
      have hl := scan_lname_eq eo.toPairs hhead2
      rw [show scanElements (Json.obj eo :: rest) acc =
            (match lnameResolve eo.toPairs with
             | .error e2 => .error e2
             | .ok lname => scanElements rest (applyCat lname (elemVal eo.toPairs) acc)) from rfl,
          hl]
      show scanElements rest (applyCat (lnameOf eo.toPairs) (elemVal eo.toPairs) acc) = _
      rw [ih htl _]
      simp only [lastCatVal_cons]
      by_cases hmin : nameMatches (lnameOf eo.toPairs) minKeys = true
      · simp [applyCat, elemCat, hmin]
      · by_cases hmax : nameMatches (lnameOf eo.toPairs) maxKeys = true
        · simp [applyCat, elemCat, hmin, hmax]
        · by_cases hdesc : nameMatches (lnameOf eo.toPairs) descKeys = true
          · simp [applyCat, elemCat, hmin, hmax, hdesc]
          · simp [applyCat, elemCat, hmin, hmax, hdesc]
    | null =>
      rw [show scanElements (Json.null :: rest) acc = scanElements rest acc from rfl, ih htl _]
      simp [lastCatVal_cons, elemCat]
    | bool b =>
      rw [show scanElements (Json.bool b :: rest) acc = scanElements rest acc from rfl, ih htl _]
      simp [lastCatVal_cons, elemCat]
    | num n =>
      rw [show scanElements (Json.num n :: rest) acc = scanElements rest acc from rfl, ih htl _]
      simp [lastCatVal_cons, elemCat]
    | str s =>
      rw [show scanElements (Json.str s :: rest) acc = scanElements rest acc from rfl, ih htl _]
      simp [lastCatVal_cons, elemCat]
    | arr xs =>
      rw [show scanElements (Json.arr xs :: rest) acc = scanElements rest acc from rfl, ih htl _]
      simp [lastCatVal_cons, elemCat]

theorem jarrL_toList : ∀ l : JsonList, jarrL l.toList = l
  | .nil => rfl
  | .cons x t => by simp [JsonList.toList, jarrL, jarrL_toList t]

theorem toList_jarrL (l : List Json) : (jarrL l).toList = l := by
  induction l with
  | nil => rfl
  | cons x t ih => simp [jarrL, JsonList.toList, ih]

theorem pyGetL_of_hasKey_false (kvs : List (String × Json)) (k : String)
    (h : hasKey kvs k = false) : pyGetL kvs k = .null := by
  unfold hasKey at h
  unfold pyGetL
  cases hl : lookupKvs kvs k with
  | none => rfl
  | some v => rw [hl] at h; simp at h

theorem hasKey_of_pyGetL_ne_null (kvs : List (String × Json)) (k : String)
    (h : pyGetL kvs k ≠ .null) : hasKey kvs k = true := by
  by_contra hc
  exact h (pyGetL_of_hasKey_false kvs k (Bool.eq_false_iff.mpr hc))

theorem stations_rel (d : Json) :
    (get_station_list d = .null ∧ stationsSpec d = none) ∨
    (∃ sl : JsonList, get_station_list d = .arr sl ∧ stationsSpec d = some sl.toList) := by
  cases d with
  | obj o =>
    unfold get_station_list stationsSpec
    dsimp only
    by_cases hk : hasKey o.toPairs "cwaopendata" = true
    · simp only [hk, if_true]
      cases h1 : pyGetL o.toPairs "cwaopendata" with
      | obj co =>
        dsimp only
        cases h2 : pyGetL co.toPairs "dataset" with
        | obj dso =>
          dsimp only
          cases h3 : pyGetL dso.toPairs "Station" with
          | arr st => right; exact ⟨st, rfl, rfl⟩
          | null => left; exact ⟨rfl, rfl⟩
          | bool b => left; exact ⟨rfl, rfl⟩
          | num n => left; exact ⟨rfl, rfl⟩
          | str s => left; exact ⟨rfl, rfl⟩
          | obj oo => left; exact ⟨rfl, rfl⟩
        | null => left; exact ⟨rfl, rfl⟩
        | bool b => left; exact ⟨rfl, rfl⟩
        | num n => left; exact ⟨rfl, rfl⟩
        | str s => left; exact ⟨rfl, rfl⟩
        | arr xs => left; exact ⟨rfl, rfl⟩
      | null => left; exact ⟨rfl, rfl⟩
      | bool b => left; exact ⟨rfl, rfl⟩
      | num n => left; exact ⟨rfl, rfl⟩
      | str s => left; exact ⟨rfl, rfl⟩
      | arr xs => left; exact ⟨rfl, rfl⟩
    · have hkf : hasKey o.toPairs "cwaopendata" = false := Bool.eq_false_iff.mpr hk
      have hnull := pyGetL_of_hasKey_false o.toPairs "cwaopendata" hkf
      rw [hkf, hnull]
      left
      exact ⟨rfl, rfl⟩
  | null => left; exact ⟨rfl, rfl⟩
  | bool b => left; exact ⟨rfl, rfl⟩
  | num n => left; exact ⟨rfl, rfl⟩
  | str s => left; exact ⟨rfl, rfl⟩
  | arr xs => left; exact ⟨rfl, rfl⟩

theorem featuresProps_all_obj (fs : List Json) (h : fs.all Json.isObjB = true) :
    featuresProps fs = .ok (featuresPropsSpec fs) := by
  induction fs with
  | nil => rfl
  | cons f t ih =>
    rw [List.all_cons, Bool.and_eq_true] at h
    obtain ⟨hf, ht⟩ := h
    cases f with
    | obj fk =>
      unfold featuresProps
      rw [ih ht]
      rfl
    | null => simp [Json.isObjB] at hf
    | bool b => simp [Json.isObjB] at hf
    | num n => simp [Json.isObjB] at hf
    | str s => simp [Json.isObjB] at hf
    | arr xs => simp [Json.isObjB] at hf

theorem pyIter_jarr_cons (x : Json) (t : List Json) (alt : Except PyErr (List Json)) :
    (if truthy (jarr (x :: t)) = true then pyIter (jarr (x :: t)) else alt) =
      Except.ok (x :: t) := by
  rw [show truthy (jarr (x :: t)) = true from rfl, if_pos rfl]
  show Except.ok ((jarrL (x :: t)).toList) = _
  rw [toList_jarrL]

theorem locate_tail_feat (o : JsonObj)
    (hfeat : (match pyGetL o.toPairs "features" with
              | .arr fs => !fs.toList.isEmpty && fs.toList.all Json.isObjB
              | _ => true) = true) :
    (match (match pyGetL o.toPairs "features" with
            | .arr fs =>
              (match featuresProps fs.toList with
               | .ok props => Except.ok (jarr props)
               | .error e => Except.error e)
            | _ => Except.ok Json.null) with
     | .error e => Except.error e
     | .ok lv => if truthy lv then pyIter lv else Except.ok [Json.obj o]) =
      Except.ok (match pyGetL o.toPairs "features" with
                 | .arr fs => featuresPropsSpec fs.toList
                 | _ => [Json.obj o]) := by
  cases h3 : pyGetL o.toPairs "features" with
  | arr fs =>
    rw [h3] at hfeat
    dsimp only at hfeat ⊢
    rw [Bool.and_eq_true] at hfeat
    obtain ⟨hne, hall⟩ := hfeat
    rw [featuresProps_all_obj fs.toList hall]
    dsimp only
    cases hft : fs.toList with
    | nil => rw [hft] at hne; simp at hne
    | cons f t =>
      unfold featuresPropsSpec
      rw [List.map_cons]
      exact pyIter_jarr_cons _ _ _
  | null => rfl
  | bool b => rfl
  | num n => rfl
  | str s => rfl
  | obj oo => rfl

theorem locate_tail_top (o : JsonObj)
    (hloc : (match pyGetL o.toPairs "location" with | .arr .nil => false | _ => true) = true)
    (hlocs : (match pyGetL o.toPairs "locations" with | .arr .nil => false | _ => true) = true)
    (hfeat : (match pyGetL o.toPairs "features" with
              | .arr fs => !fs.toList.isEmpty && fs.toList.all Json.isObjB
              | _ => true) = true) :
    (match topLevelLists o.toPairs with
     | .error e => Except.error e
     | .ok lv => if truthy lv then pyIter lv else Except.ok [Json.obj o]) =
      Except.ok (locateSpecTop o.toPairs (Json.obj o)) := by
  unfold topLevelLists locateSpecTop
  cases h1 : pyGetL o.toPairs "location" with
  | arr xs =>
    dsimp only
    cases xs with
    | nil => rw [h1] at hloc; simp at hloc
    | cons y tl =>
      rw [show Json.arr (JsonList.cons y tl) = jarr (y :: tl.toList) from by
            simp [jarr, jarrL, jarrL_toList]]
      rw [show (JsonList.cons y tl).toList = y :: tl.toList from rfl]
      exact pyIter_jarr_cons _ _ _
  | null =>
    dsimp only
    cases h2 : pyGetL o.toPairs "locations" with
    | arr xs =>
      dsimp only
      cases xs with
      | nil => rw [h2] at hlocs; simp at hlocs
      | cons y tl =>
        rw [show Json.arr (JsonList.cons y tl) = jarr (y :: tl.toList) from by
              simp [jarr, jarrL, jarrL_toList]]
        rw [show (JsonList.cons y tl).toList = y :: tl.toList from rfl]
        exact pyIter_jarr_cons _ _ _
    | null => exact locate_tail_feat o hfeat
    | bool b => exact locate_tail_feat o hfeat
    | num n => exact locate_tail_feat o hfeat
    | str s => exact locate_tail_feat o hfeat
    | obj oo => exact locate_tail_feat o hfeat
  | bool b =>
    dsimp only
    cases h2 : pyGetL o.toPairs "locations" with
    | arr xs =>
      dsimp only
      cases xs with
      | nil => rw [h2] at hlocs; simp at hlocs
      | cons y tl =>
        rw [show Json.arr (JsonList.cons y tl) = jarr (y :: tl.toList) from by
              simp [jarr, jarrL, jarrL_toList]]
        rw [show (JsonList.cons y tl).toList = y :: tl.toList from rfl]
        exact pyIter_jarr_cons _ _ _
    | null => exact locate_tail_feat o hfeat
    | bool b2 => exact locate_tail_feat o hfeat
    | num n => exact locate_tail_feat o hfeat
    | str s => exact locate_tail_feat o hfeat
    | obj oo => exact locate_tail_feat o hfeat
  | num n =>
    dsimp only
    cases h2 : pyGetL o.toPairs "locations" with
    | arr xs =>
      dsimp only
      cases xs with
      | nil => rw [h2] at hlocs; simp at hlocs
      | cons y tl =>
        rw [show Json.arr (JsonList.cons y tl) = jarr (y :: tl.toList) from by
              simp [jarr, jarrL, jarrL_toList]]
        rw [show (JsonList.cons y tl).toList = y :: tl.toList from rfl]
        exact pyIter_jarr_cons _ _ _
    | null => exact locate_tail_feat o hfeat
    | bool b => exact locate_tail_feat o hfeat
    | num n2 => exact locate_tail_feat o hfeat
    | str s => exact locate_tail_feat o hfeat
    | obj oo => exact locate_tail_feat o hfeat
  | str s =>
    dsimp only
    cases h2 : pyGetL o.toPairs "locations" with
    | arr xs =>
      dsimp only
      cases xs with
      | nil => rw [h2] at hlocs; simp at hlocs
      | cons y tl =>
        rw [show Json.arr (JsonList.cons y tl) = jarr (y :: tl.toList) from by
              simp [jarr, jarrL, jarrL_toList]]
        rw [show (JsonList.cons y tl).toList = y :: tl.toList from rfl]
        exact pyIter_jarr_cons _ _ _
    | null => exact locate_tail_feat o hfeat
    | bool b => exact locate_tail_feat o hfeat
    | num n => exact locate_tail_feat o hfeat
    | str s2 => exact locate_tail_feat o hfeat
    | obj oo => exact locate_tail_feat o hfeat
  | obj oo =>
    dsimp only
    cases h2 : pyGetL o.toPairs "locations" with
    | arr xs =>
      dsimp only
      cases xs with
      | nil => rw [h2] at hlocs; simp at hlocs
      | cons y tl =>
        rw [show Json.arr (JsonList.cons y tl) = jarr (y :: tl.toList) from by
              simp [jarr, jarrL, jarrL_toList]]
        rw [show (JsonList.cons y tl).toList = y :: tl.toList from rfl]
        exact pyIter_jarr_cons _ _ _
    | null => exact locate_tail_feat o hfeat
    | bool b => exact locate_tail_feat o hfeat
    | num n => exact locate_tail_feat o hfeat
    | str s => exact locate_tail_feat o hfeat
    | obj oo2 => exact locate_tail_feat o hfeat

theorem arr_cons_eq_jarr (y : Json) (tl : JsonList) :
    Json.arr (JsonList.cons y tl) = jarr (y :: tl.toList) := by
  simp [jarr, jarrL, jarrL_toList]

theorem locate_obs_eq_spec (d : Json) (h : locAgreeCond d = true) :
    locate_records_obs d = .ok (locateSpec d) := by
  unfold locAgreeCond at h
  rw [Bool.and_eq_true] at h
  obtain ⟨hst, hrest⟩ := h
  rcases stations_rel d with ⟨hgi, hsp⟩ | ⟨sl, hgl, hsp⟩
  · unfold locate_records_obs locationsObs locateSpec
    dsimp only
    rw [hgi, hsp, if_neg (by simp [truthy])]
    cases d with
    | obj o =>
      have hr : ((match pyGetL o.toPairs "records" with
                  | .obj ro =>
                    (match pyGetL ro.toPairs "location" with
                     | .null => true
                     | .arr (.cons _ _) => true
                     | _ => false)
                  | .arr (.cons _ _) => true
                  | .arr .nil => false
                  | _ => true) &&
                 (match pyGetL o.toPairs "location" with
                  | .arr .nil => false
                  | _ => true) &&
                 (match pyGetL o.toPairs "locations" with
                  | .arr .nil => false
                  | _ => true) &&
                 (match pyGetL o.toPairs "features" with
                  | .arr fs => !fs.toList.isEmpty && fs.toList.all Json.isObjB
                  | _ => true)) = true := hrest
      rw [Bool.and_eq_true, Bool.and_eq_true, Bool.and_eq_true] at hr
      obtain ⟨⟨⟨hB, hC⟩, hD⟩, hE⟩ := hr
      dsimp only
      unfold locationsBranchDict
      dsimp only
      by_cases hk : hasKey o.toPairs "records" = true
      · rw [if_pos hk]
        cases h1 : pyGetL o.toPairs "records" with
        | obj ro =>
          rw [h1] at hB
          have hB2 : (match pyGetL ro.toPairs "location" with
                      | Json.null => true
                      | Json.arr (JsonList.cons _ _) => true
                      | _ => false) = true := hB
          dsimp only
          by_cases hk2 : hasKey ro.toPairs "location" = true
          · rw [if_pos hk2]
            cases h2 : pyGetL ro.toPairs "location" with
            | null =>
              rw [if_pos (show isNull Json.null = true from rfl)]
              exact locate_tail_top o hC hD hE
            | arr xs =>
              rw [h2] at hB2
              cases xs with
              | nil => simp at hB2
              | cons y tl =>
                rw [if_neg (show ¬isNull (Json.arr (JsonList.cons y tl)) = true by simp [isNull])]
                rfl
            | bool b => rw [h2] at hB2; simp at hB2
            | num n => rw [h2] at hB2; simp at hB2
            | str s => rw [h2] at hB2; simp at hB2
            | obj oo => rw [h2] at hB2; simp at hB2
          · rw [if_neg hk2]
            rw [if_pos (show isNull Json.null = true from rfl)]
            rw [pyGetL_of_hasKey_false ro.toPairs "location" (Bool.eq_false_iff.mpr hk2)]
            exact locate_tail_top o hC hD hE
        | arr rs =>
          rw [h1] at hB
          dsimp only
          cases rs with
          | nil => simp at hB
          | cons y tl =>
            rw [if_neg (show ¬isNull (Json.arr (JsonList.cons y tl)) = true by simp [isNull])]
            rfl
        | null =>
          dsimp only
          rw [if_pos (show isNull Json.null = true from rfl)]
          exact locate_tail_top o hC hD hE
        | bool b =>
          dsimp only
          rw [if_pos (show isNull Json.null = true from rfl)]
          exact locate_tail_top o hC hD hE
        | num n =>
          dsimp only
          rw [if_pos (show isNull Json.null = true from rfl)]
          exact locate_tail_top o hC hD hE
        | str s =>
          dsimp only
          rw [if_pos (show isNull Json.null = true from rfl)]
          exact locate_tail_top o hC hD hE
      · rw [if_neg hk]
        rw [if_pos (show isNull Json.null = true from rfl)]
        rw [pyGetL_of_hasKey_false o.toPairs "records" (Bool.eq_false_iff.mpr hk)]
        exact locate_tail_top o hC hD hE
    | arr xs =>
      cases xs with
      | nil => rfl
      | cons y tl => rfl
    | null => rfl
    | bool b => rfl
    | num n => rfl
    | str s => rfl
  · have hobj : ∃ o : JsonObj, d = .obj o := by
      cases d with
      | obj o => exact ⟨o, rfl⟩
      | null => simp [get_station_list] at hgl
      | bool b => simp [get_station_list] at hgl
      | num n => simp [get_station_list] at hgl
      | str s => simp [get_station_list] at hgl
      | arr xs => simp [get_station_list] at hgl
    obtain ⟨o, rfl⟩ := hobj
    cases sl with
    | nil => rw [hgl] at hst; simp at hst
    | cons y tl =>
      unfold locate_records_obs locationsObs locateSpec
      dsimp only
      rw [hgl, hsp]
      rfl

def recordsVal (kvs : List (String × Json)) (l0 : Json) : Json :=
  if hasKey kvs "records" then
    match pyGetL kvs "records" with
    | .obj ro => if hasKey ro.toPairs "location" then pyGetL ro.toPairs "location" else l0
    | .arr rs => .arr rs
    | _ => l0
  else l0

theorem locationsBranchDict_eq (kvs : List (String × Json)) (l0 : Json) :
    locationsBranchDict kvs l0 =
      (if isNull (recordsVal kvs l0) = true then topLevelLists kvs
       else .ok (recordsVal kvs l0)) := rfl

theorem branchDict_no_override (kvs : List (String × Json)) (l0 : Json)
    (hov : (match pyGetL kvs "records" with
            | .obj ro => hasKey ro.toPairs "location"
            | .arr _ => true
            | _ => false) = false)
    (hl0 : isNull l0 = false) :
    locationsBranchDict kvs l0 = .ok l0 := by
  have hrv : recordsVal kvs l0 = l0 := by
    unfold recordsVal
    by_cases hk : hasKey kvs "records" = true
    · rw [if_pos hk]
      cases h1 : pyGetL kvs "records" with
      | obj ro =>
        rw [h1] at hov
        have hov2 : hasKey ro.toPairs "location" = false := hov
        dsimp only
        rw [hov2]
        exact if_neg Bool.false_ne_true
      | arr rs =>
        rw [h1] at hov
        simp at hov
      | null => rfl
      | bool b => rfl
      | num n => rfl
      | str s => rfl
    · exact if_neg hk
  rw [locationsBranchDict_eq, hrv, hl0]
  exact if_neg Bool.false_ne_true

theorem locate_prec_vs_obs (d : Json)
    (h : (truthy (get_station_list d) && precOverride d) = false) :
    locate_records_obs d = locate_records_prec d ∨
      (locate_records_obs d = .ok [d] ∧ locate_records_prec d = .ok []) := by
  by_cases hst : truthy (get_station_list d) = true
  · have hov : precOverride d = false := by
      rw [hst] at h
      simpa using h
    have hobj : ∃ o : JsonObj, d = .obj o := by
      cases d with
      | obj o => exact ⟨o, rfl⟩
      | null => simp [get_station_list, truthy] at hst
      | bool b => simp [get_station_list, truthy] at hst
      | num n => simp [get_station_list, truthy] at hst
      | str s => simp [get_station_list, truthy] at hst
      | arr xs => simp [get_station_list, truthy] at hst
    obtain ⟨o, rfl⟩ := hobj
    rcases stations_rel (Json.obj o) with ⟨hgi, _⟩ | ⟨sl, hgl, _⟩
    · rw [hgi] at hst
      simp [truthy] at hst
    · cases sl with
      | nil => rw [hgl] at hst; simp [truthy] at hst
      | cons y tl =>
        left
        have hov0 : (match pyGetL o.toPairs "records" with
                     | .obj ro => hasKey ro.toPairs "location"
                     | .arr _ => true
                     | _ => false) = false := hov
        have hbd := branchDict_no_override o.toPairs (Json.arr (JsonList.cons y tl)) hov0 rfl
        unfold locate_records_obs locate_records_prec locationsObs locationsPrec
        dsimp only
        rw [hgl]
        rw [if_pos (show truthy (Json.arr (JsonList.cons y tl)) = true from rfl),
            if_pos (show truthy (Json.arr (JsonList.cons y tl)) = true from rfl)]
        rw [hbd]
        rfl
  · have hstf : truthy (get_station_list d) = false := Bool.eq_false_iff.mpr hst
    unfold locate_records_obs locate_records_prec locationsObs locationsPrec
    dsimp only
    rw [hstf]
    rw [if_neg Bool.false_ne_true, if_neg Bool.false_ne_true]
    cases d with
    | obj o =>
      dsimp only
      cases hlb : locationsBranchDict o.toPairs Json.null with
      | error e => left; rfl
      | ok lv =>
        dsimp only
        by_cases htv : truthy lv = true
        · left
          rw [if_pos htv, if_pos htv]
        · right
          rw [if_neg htv, if_neg htv]
          exact ⟨rfl, rfl⟩
    | arr xs =>
      left
      cases xs with
      | nil => rfl
      | cons y tl => rfl
    | null => left; rfl
    | bool b => left; rfl
    | num n => left; rfl
    | str s => left; rfl

theorem coerceTempField_bad (s : String) (hs : s ≠ "") (hf : pyFloatOfString s = none) :
    coerceTempField (some s) = none := by
  unfold coerceTempField
  dsimp only
  rw [if_neg hs, hf]
  rfl

theorem insert_rows_drop (A B : List ObsRow) (r : ObsRow)
    (hbad : coerceTempField r.min_temp = none ∨ coerceTempField r.max_temp = none) :
    insert_rows (A ++ r :: B) = insert_rows (A ++ B) := by
  induction A with
  | nil =>
    show insert_rows (r :: B) = insert_rows B
    conv_lhs => rw [insert_rows]
    rcases hbad with h1 | h2
    · rw [h1]
    · rw [h2]
      cases coerceTempField r.min_temp <;> rfl
  | cons x t ih =>
    show insert_rows (x :: (t ++ r :: B)) = insert_rows (x :: (t ++ B))
    conv_lhs => rw [insert_rows]
    conv_rhs => rw [insert_rows]
    rw [ih]

/-! ## Concrete documents used by counterexamples and witnesses -/

/-- A document whose `features` list contains a non-object entry. -/
def c1doc : Json := jobj [("features", jarr [.str "x"])]

/-- A record whose `min_temp` is a non-numeric string. -/
def c2row : ObsRow :=
  { location := "TA", date := "D", min_temp := some "abc", max_temp := none, description := none }

/-- A record whose first `time` entry is a number, so `_get_first_available`
raises `TypeError` on it. -/
def c3badLoc : Json := jobj [("time", jarr [.num 5])]

/-- A document with an empty Station wrapper list and a top-level `location`
list. -/
def c4doc : Json :=
  jobj [("cwaopendata", jobj [("dataset", jobj [("Station", jarr [])])]),
        ("location", jarr [jobj [("a", .num 1)]])]

/-- A station record with two description-classified elements, the last of
which resolves to no value, plus a record-level `description` key. -/
def c6doc : Json :=
  jobj [("description", .str "B"),
        ("weatherElement", jarr
          [jobj [("elementName", .str "Wx"), ("value", .str "A")],
           jobj [("elementName", .str "WxDetail")]])]

/-- A station record whose min-temperature element carries only a
`time[0].startTime`, no nested parameter and no direct value keys. -/
def c7doc : Json :=
  jobj [("weatherElement", jarr
          [jobj [("elementName", .str "MinT"),
                 ("time", jarr [jobj [("startTime", .str "09:00")]])]])]

/-- A station list whose only record has a rainfall entry with numeric
precipitation `0`. -/
def c8doc : Json :=
  jarr [jobj [("locationName", .str "A"),
              ("RainfallElement", jobj [("P", jobj [("Precipitation", .num 0)])])]]

/-- A station record with two min-classified elements, for the last-match
witness. -/
def c6wObj : JsonObj :=
  jobjL [("weatherElement", jarr
           [jobj [("elementName", .str "MinT"), ("value", .str "1")],
            jobj [("elementName", .str "tmin2"), ("value", .str "2")]])]

def c6wEls : JsonList :=
  jarrL [jobj [("elementName", .str "MinT"), ("value", .str "1")],
         jobj [("elementName", .str "tmin2"), ("value", .str "2")]]

/-- The spec's rainfall-flattening example record. -/
def c8wObj : JsonObj :=
  jobjL [("StationName", .str "S"),
         ("RainfallElement", jobj
           [("Past24hr", jobj [("Precipitation", .str "3.5")]),
            ("Now", jobj [("Precipitation", .str "0.0")])])]

def c8wEnts : JsonObj :=
  jobjL [("Past24hr", jobj [("Precipitation", .str "3.5")]),
         ("Now", jobj [("Precipitation", .str "0.0")])]

/-! ## Claim theorems -/

/-- C1: the claim says `parse_locations` and `parse_precipitation` never
raise on any decoded JSON input.  The code violates this: on a document
whose GeoJSON `features` list contains a non-object entry, the comprehension
`f.get("properties", \x7b\x7d)` raises `AttributeError` in both functions,
outside every `try` block. -/
theorem c1_parse_raises_on_nonobject_feature :
    parse_locations c1doc "2024-01-01T00:00:00" = .error .attributeError ∧
    parse_precipitation c1doc "2024-01-01T00:00:00" = .error .attributeError :=
  ⟨rfl, rfl⟩

/-- C2 (counterexample): a parsed record whose `min_temp` is the non-numeric
string `"abc"` is dropped whole by `insert_rows` — nothing is inserted and
the count is 0 — contradicting the claim that the record is still stored
with the field null. -/
theorem c2_counterexample : insert_rows [c2row] = ([], 0) := rfl

/-- C2 (amended): a record whose `min_temp` or `max_temp` is a non-empty
string that fails float coercion is skipped whole by the storage step
(`except: continue`), contributing neither an inserted tuple nor a count;
the remaining records are processed as if it were absent. -/
theorem c2_amended (A B : List ObsRow) (r : ObsRow) (s : String)
    (hs : s ≠ "") (hf : pyFloatOfString s = none)
    (hr : r.min_temp = some s ∨ r.max_temp = some s) :
    insert_rows (A ++ r :: B) = insert_rows (A ++ B) := by
  apply insert_rows_drop
  rcases hr with h | h
  · exact Or.inl (by rw [h]; exact coerceTempField_bad s hs hf)
  · exact Or.inr (by rw [h]; exact coerceTempField_bad s hs hf)

/-- C2 (witness): the amended theorem applied to a singleton batch holding
the `"abc"` record. -/
theorem c2_witness : insert_rows ([] ++ c2row :: []) = insert_rows ([] ++ []) :=
  c2_amended [] [] c2row "abc" (by decide) rfl (Or.inl rfl)

/-- C3: an exception while processing one station record skips that record
alone — it contributes nothing to the output and extraction continues with
the remaining records — and every emitted row comes from a record whose
extraction succeeded in full (no partial record), in both the observation
and the precipitation extractor. -/
theorem c3_per_record_isolation (now : String) (loc : Json) (e : PyErr)
    (A B locs : List Json) :
    (extract_obs_record now loc = .error e →
      process_locations now (A ++ loc :: B) =
        process_locations now A ++ process_locations now B) ∧
    (extract_precip_record now loc = .error e →
      process_precip now (A ++ loc :: B) =
        process_precip now A ++ process_precip now B) ∧
    (∀ r, r ∈ process_locations now locs →
      ∃ l, l ∈ locs ∧ extract_obs_record now l = .ok (some r)) ∧
    (∀ r, r ∈ process_precip now locs →
      ∃ l rs, l ∈ locs ∧ extract_precip_record now l = .ok rs ∧ r ∈ rs) := by
  refine ⟨?_, ?_, ?_, ?_⟩
  · intro h
    rw [process_locations_append]
    rw [show process_locations now (loc :: B) = process_locations now B from by
      simp [process_locations, h]]
  · intro h
    rw [process_precip_append]
    rw [show process_precip now (loc :: B) = process_precip now B from by
      simp [process_precip, h]]
  · intro r hm
    exact mem_process_locations now locs r hm
  · intro r hm
    exact mem_process_precip now locs r hm

/-- C3 (witness): the record `\x7b"time": [5]\x7d` raises `TypeError` inside
`_get_first_available` and is skipped, leaving the batch result unchanged. -/
theorem c3_witness :
    process_locations "T" ([jobj [("StationName", .str "S")]] ++ c3badLoc :: []) =
      process_locations "T" [jobj [("StationName", .str "S")]] ++ process_locations "T" [] :=
  (c3_per_record_isolation "T" c3badLoc .typeError [jobj [("StationName", .str "S")]] [] []).1 rfl

/-- C4 (counterexample): the claim says a document with both a
`cwaopendata.dataset.Station` list and a top-level `location` list resolves
to the Station list.  With an empty Station list the code's truthiness test
falls through to the `location` list, while the spec's §4.2 order uses the
Station list. -/
theorem c4_counterexample :
    locate_records_obs c4doc = .ok [jobj [("a", .num 1)]] ∧
    locateSpec c4doc = [] ∧
    locate_records_obs c4doc ≠ .ok (locateSpec c4doc) := by
  refine ⟨rfl, rfl, ?_⟩
  intro hcontra
  rw [show locateSpec c4doc = [] from rfl] at hcontra
  rw [show locate_records_obs c4doc = .ok [jobj [("a", .num 1)]] from rfl] at hcontra
  exact List.cons_ne_nil _ _ (Except.ok.inj hcontra)

/-- C4 (amended): the locator follows §4.2's fixed order with first success
winning, provided a heuristic is only deemed to succeed on a truthy value:
when the Station wrapper, `records`, `location`, `locations` and `features`
lists are non-empty where present, every `records.location` value is null or
a non-empty list, and all features entries are objects, the located record
list is exactly §4.2's. -/
theorem c4_amended (d : Json) (h : locAgreeCond d = true) :
    locate_records_obs d = .ok (locateSpec d) :=
  locate_obs_eq_spec d h

/-- C4 (witness): the amended theorem applied to a document with a
non-empty top-level `location` list. -/
theorem c4_witness :
    locAgreeCond (jobj [("location", jarr [jobj [("locationName", .str "L")]])]) = true ∧
    locate_records_obs (jobj [("location", jarr [jobj [("locationName", .str "L")]])]) =
      .ok (locateSpec (jobj [("location", jarr [jobj [("locationName", .str "L")]])])) :=
  ⟨rfl, c4_amended _ rfl⟩

/-- C5 (counterexample): on the plain object `\x7b"foo": 1\x7d` no heuristic
fires; `parse_locations` falls back to wrapping the whole document as a
single record while `parse_precipitation` locates nothing, so the two
extractors disagree on which per-station objects the document contains. -/
theorem c5_counterexample :
    locate_records_obs (jobj [("foo", .num 1)]) = .ok [jobj [("foo", .num 1)]] ∧
    locate_records_prec (jobj [("foo", .num 1)]) = .ok [] ∧
    locate_records_obs (jobj [("foo", .num 1)]) ≠ locate_records_prec (jobj [("foo", .num 1)]) := by
  refine ⟨rfl, rfl, ?_⟩
  intro hcontra
  rw [show locate_records_prec (jobj [("foo", .num 1)]) = .ok [] from rfl] at hcontra
  rw [show locate_records_obs (jobj [("foo", .num 1)]) = .ok [jobj [("foo", .num 1)]] from rfl]
    at hcontra
  exact List.cons_ne_nil _ _ (Except.ok.inj hcontra)

/-- C5 (amended): the two locators agree on every document except for the
two code asymmetries — `parse_precipitation` re-enters the dict branch after
a Station-wrapper hit (so a `records` match overrides it), and it lacks the
single-object fallback.  Away from the override case, either the located
lists are equal, or `parse_locations` wraps the document as one record while
`parse_precipitation` locates nothing. -/
theorem c5_amended (d : Json)
    (h : (truthy (get_station_list d) && precOverride d) = false) :
    locate_records_obs d = locate_records_prec d ∨
      (locate_records_obs d = .ok [d] ∧ locate_records_prec d = .ok []) :=
  locate_prec_vs_obs d h

/-- C5 (witness): the amended theorem applied to a bare station list, where
the two locators agree. -/
theorem c5_witness :
    (truthy (get_station_list (jarr [jobj [("a", .num 1)]])) &&
       precOverride (jarr [jobj [("a", .num 1)]])) = false ∧
    (locate_records_obs (jarr [jobj [("a", .num 1)]]) =
        locate_records_prec (jarr [jobj [("a", .num 1)]]) ∨
      (locate_records_obs (jarr [jobj [("a", .num 1)]]) = .ok [jarr [jobj [("a", .num 1)]]] ∧
        locate_records_prec (jarr [jobj [("a", .num 1)]]) = .ok [])) :=
  ⟨rfl, c5_amended _ rfl⟩

/-- C6 (counterexample): the claim says the value kept in the emitted record
is that of the last matching element scanned.  Here the last
description-classified element (`WxDetail`) resolves to no value, and the
emitted record instead carries the record-level fallback `description`
key `"B"`. -/
theorem c6_counterexample :
    parse_locations c6doc "T" =
      .ok [{ location := "Unknown", date := "T", min_temp := none, max_temp := none,
             description := some "B" }] ∧
    elemCat (jobj [("elementName", .str "WxDetail")]) = some TempCat.descT ∧
    lastCatVal [jobj [("elementName", .str "Wx"), ("value", .str "A")],
                jobj [("elementName", .str "WxDetail")]] TempCat.descT .null = Json.null ∧
    strOpt Json.null = none :=
  ⟨rfl, rfl, rfl, rfl⟩

/-- C6 (amended): elements are classified by substring containment on the
lowercased resolved name (min before max before description, plain "temp"
matching nothing), the value kept per category is that of the last matching
element scanned, and the emitted description additionally falls back to the
record-level resolver over `[description, weather, wx, parameterName]`
whenever the scan result is falsy. -/
theorem c6_amended (now : String) (o : JsonObj) (esl : JsonList) (dv : Json)
    (hwe : pyGetL o.toPairs "weatherElement" = .arr esl)
    (hdate : dateResolveObs now o.toPairs = .ok dv)
    (hnm : namesOkB esl.toList = true) :
    extract_obs_record now (.obj o) = .ok (some
      { location := pyStr (locNameOf o.toPairs)
        date := pyStr dv
        min_temp := strOpt (lastCatVal esl.toList .minT .null)
        max_temp := strOpt (lastCatVal esl.toList .maxT .null)
        description := strOpt (descFallback o.toPairs (lastCatVal esl.toList .descT .null)) }) := by
  have hscan : scanOf o.toPairs =
      .ok ⟨lastCatVal esl.toList .minT .null, lastCatVal esl.toList .maxT .null,
           lastCatVal esl.toList .descT .null⟩ := by
    unfold scanOf
    rw [hwe]
    exact scanElements_eq esl.toList hnm ⟨.null, .null, .null⟩
  unfold extract_obs_record
  dsimp only
  rw [hdate, hscan]

/-- C6 (witness): two min-classified elements; the emitted `min_temp` is the
last one's value. -/
theorem c6_witness :
    extract_obs_record "T" (.obj c6wObj) = .ok (some
      { location := "Unknown", date := "T", min_temp := some "2", max_temp := none,
        description := none }) :=
  (c6_amended "T" c6wObj c6wEls (.str "T") rfl rfl rfl).trans rfl

/-- C7: the claim says only the nested parameter sources and the key
resolver ever supply an element's value, never a timestamp from `time[0]`.
The code seeds `val` with `time[0].startTime` (line 151, commented "not the
value") and keeps it when no nested parameter exists: a min-temperature
element carrying only a start time yields that timestamp as `min_temp`, and
the key-resolver fallback is skipped. -/
theorem c7_timestamp_used_as_value :
    parse_locations c7doc "T" =
      .ok [{ location := "Unknown", date := "09:00", min_temp := some "09:00",
             max_temp := none, description := none }] := rfl

/-- C8 (counterexample): for a rainfall entry `\x7b"Precipitation": 0\x7d` the
claim's value rule (key resolver, then float) gives `0.0`, but the code's
`or None` collapses the falsy resolved value so the emitted record carries
no precipitation. -/
theorem c8_counterexample :
    parse_precipitation c8doc "T" =
      .ok [{ location := "A", date := "T", period := "P", precipitation := none }] ∧
    c8ClaimValue (jobj [("Precipitation", .num 0)]) = some 0 :=
  ⟨rfl, rfl⟩

/-- C8 (amended): a record whose resolved rainfall map is an object with N
entries yields exactly N precipitation rows, one per entry in insertion
order, the value taken from an object entry by the key resolver with a falsy
result treated as absent (or the entry itself otherwise) and coerced to a
float, a failed coercion leaving the emitted row's precipitation absent
rather than dropping it. -/
theorem c8_amended (now : String) (o : JsonObj) (dv : Json) (ents : JsonObj)
    (hdate : dateResolvePrec now o.toPairs = .ok dv)
    (hrf : rfOf o.toPairs = .obj ents) :
    ∃ rs, extract_precip_record now (.obj o) = .ok rs ∧
      rs.length = ents.toPairs.length ∧
      ∀ (i : Nat) (hi : i < rs.length) (hj : i < ents.toPairs.length),
        rs.get ⟨i, hi⟩ =
          { location := pyStr (locNameOf o.toPairs)
            date := pyStr dv
            period := (ents.toPairs.get ⟨i, hj⟩).1
            precipitation :=
              if isNoneOrEmpty (precipValOf (ents.toPairs.get ⟨i, hj⟩).2) then none
              else pyFloatJ (precipValOf (ents.toPairs.get ⟨i, hj⟩).2) } := by
  refine ⟨rainfallRows (pyStr (locNameOf o.toPairs)) (pyStr dv) (rfOf o.toPairs), ?_, ?_, ?_⟩
  · unfold extract_precip_record
    dsimp only
    rw [hdate]
  · unfold rainfallRows
    rw [hrf]
    exact List.length_map _ _
  · intro i hi hj
    have hrows : rainfallRows (pyStr (locNameOf o.toPairs)) (pyStr dv) (rfOf o.toPairs) =
        ents.toPairs.map (fun pe =>
          { location := pyStr (locNameOf o.toPairs)
            date := pyStr dv
            period := pe.1
            precipitation :=
              if isNoneOrEmpty (precipValOf pe.2) then none
              else pyFloatJ (precipValOf pe.2) }) := by
      unfold rainfallRows
      rw [hrf]
    simp only [List.get_eq_getElem, hrows, List.getElem_map]

/-- C8 (witness): the spec's rainfall example — two entries, two rows, in
map order. -/
theorem c8_witness :
    ∃ rs, extract_precip_record "T" (.obj c8wObj) = .ok rs ∧
      rs.length = c8wEnts.toPairs.length ∧
      ∀ (i : Nat) (hi : i < rs.length) (hj : i < c8wEnts.toPairs.length),
        rs.get ⟨i, hi⟩ =
          { location := pyStr (locNameOf c8wObj.toPairs)
            date := pyStr (Json.str "T")
            period := (c8wEnts.toPairs.get ⟨i, hj⟩).1
            precipitation :=
              if isNoneOrEmpty (precipValOf (c8wEnts.toPairs.get ⟨i, hj⟩).2) then none
              else pyFloatJ (precipValOf (c8wEnts.toPairs.get ⟨i, hj⟩).2) } :=
  c8_amended "T" c8wObj (.str "T") c8wEnts rfl rfl

/-- C9: every emitted observation row and precipitation row has a non-empty
`location` (defaulting to "Unknown") and a non-empty `date` (defaulting to
the current UTC timestamp, which is itself non-empty). -/
theorem c9_location_date_nonempty (data : Json) (now : String) (hn : now ≠ "") :
    (∀ rows r, parse_locations data now = .ok rows → r ∈ rows →
      r.location ≠ "" ∧ r.date ≠ "") ∧
    (∀ rows r, parse_precipitation data now = .ok rows → r ∈ rows →
      r.location ≠ "" ∧ r.date ≠ "") := by
  constructor
  · intro rows r hp hm
    unfold parse_locations at hp
    split at hp
    · exact Except.noConfusion hp
    · rename_i locs hlocs
      rw [Except.ok.injEq] at hp
      subst hp
      rcases mem_process_locations now locs r hm with ⟨l, _, he⟩
      obtain ⟨h1, h2⟩ := extract_obs_ok_fields now l r he
      exact ⟨h1, h2 hn⟩
  · intro rows r hp hm
    unfold parse_precipitation at hp
    split at hp
    · exact Except.noConfusion hp
    · rename_i locs hlocs
      rw [Except.ok.injEq] at hp
      subst hp
      rcases mem_process_precip now locs r hm with ⟨l, rs, _, he, hrs⟩
      obtain ⟨h1, h2⟩ := extract_precip_ok_fields now l rs r he hrs
      exact ⟨h1, h2 hn⟩

/-- C9 (witness): the empty-object document wraps to one record whose
location defaults to "Unknown" and whose date defaults to the supplied
timestamp. -/
theorem c9_witness :
    ({ location := "Unknown", date := "T", min_temp := none, max_temp := none,
       description := none } : ObsRow).location ≠ "" ∧
    ({ location := "Unknown", date := "T", min_temp := none, max_temp := none,
       description := none } : ObsRow).date ≠ "" :=
  (c9_location_date_nonempty (jobj []) "T" (by decide)).1 _ _ rfl (List.mem_singleton.mpr rfl)

/-- C10: a located entry that is not a JSON object is silently skipped by
both extractors — it yields no row, raises nothing, and the surrounding
batch is processed as if the entry were absent. -/
theorem c10_nonobject_records_skipped (now : String) (loc : Json) (A B : List Json)
    (h : loc.isObjB = false) :
    extract_obs_record now loc = .ok none ∧
    extract_precip_record now loc = .ok [] ∧
    process_locations now (A ++ loc :: B) =
      process_locations now A ++ process_locations now B ∧
    process_precip now (A ++ loc :: B) =
      process_precip now A ++ process_precip now B := by
  have h1 : extract_obs_record now loc = .ok none := by
    cases loc with
    | obj o => simp [Json.isObjB] at h
    | null => rfl
    | bool b => rfl
    | num n => rfl
    | str s => rfl
    | arr xs => rfl
  have h2 : extract_precip_record now loc = .ok [] := by
    cases loc with
    | obj o => simp [Json.isObjB] at h
    | null => rfl
    | bool b => rfl
    | num n => rfl
    | str s => rfl
    | arr xs => rfl
  refine ⟨h1, h2, ?_, ?_⟩
  · rw [process_locations_append]
    rw [show process_locations now (loc :: B) = process_locations now B from by
      simp [process_locations, h1]]
  · rw [process_precip_append]
    rw [show process_precip now (loc :: B) = process_precip now B from by
      simp [process_precip, h2]]

/-- C10 (witness): the number `3` as a located entry is skipped by both
extractors. -/
theorem c10_witness :
    extract_obs_record "T" (.num 3) = .ok none ∧
    extract_precip_record "T" (.num 3) = .ok [] :=
  ⟨(c10_nonobject_records_skipped "T" (.num 3) [] [] rfl).1,
   (c10_nonobject_records_skipped "T" (.num 3) [] [] rfl).2.1⟩
